import Mathlib

/-!
Verification of the session-orchestration core of
`src/slic3r/GUI/UserAccountCommunication.cpp` (PrusaSlicer).

The C++ code is shallowly embedded: strings become `List Char` or `String`,
raw byte strings become `List Nat` (each byte `< 256`), `size_t` arithmetic
is `Nat` reduced modulo `2 ^ 64`, and signed 32-bit `int` arithmetic is `Int`
wrapped into `[-2^31, 2^31)`.  Stateful orchestration code becomes explicit
state passing on a state record.
-/

set_option maxHeartbeats 1000000

namespace UserAccountComm

/-- ASCII alphanumeric test, mirroring the character-range checks
`(c >= 'A' && c <= 'Z') || (c >= 'a' && c <= 'z') || (c >= '0' && c <= '9')`
in `get_code_from_message`. -/
def isAlnumAscii (c : Char) : Bool :=
  ('A' ≤ c && c ≤ 'Z') || ('a' ≤ c && c ≤ 'z') || ('0' ≤ c && c ≤ '9')

/-- `std::string::npos` on a 64-bit platform: `2 ^ 64 - 1`. -/
def NPOS : Nat := 2 ^ 64 - 1

/-- The marker searched for by `get_code_from_message`. -/
def codeMarker : List Char := ['c', 'o', 'd', 'e', '=']

/-- Whether `codeMarker` occurs in `s` starting at index `p`. -/
def hasCodeAt (s : List Char) (p : Nat) : Bool :=
  codeMarker.isPrefixOf (s.drop p)

/-- `url_message.rfind("code=")`: the largest index at which the marker
occurs, or `NPOS` when it does not occur at all. -/
def rfindCode (s : List Char) : Nat :=
  match (List.range (s.length + 1)).reverse.find? (fun i => hasCodeAt s i) with
  | some i => i
  | none => NPOS

/-- Embedding of `get_code_from_message` (UserAccountCommunication.cpp,
lines 51-63): `pos = rfind("code=")`, then collect characters from index
`pos + 5` while they are alphanumeric.  `pos + 5` is `size_t` arithmetic,
hence the reduction modulo `2 ^ 64`: when the marker is absent,
`pos = NPOS` and `pos + 5` wraps around to `4`. -/
def get_code_from_message (s : List Char) : List Char :=
  (s.drop ((rfindCode s + 5) % 2 ^ 64)).takeWhile isAlnumAscii

theorem hasCodeAt_lt_length (s : List Char) (p : Nat) (hf : hasCodeAt s p = true) :
    p < s.length := by
  by_contra h
  push_neg at h
  have hd : s.drop p = [] := List.drop_eq_nil_of_le h
  rw [hasCodeAt, hd] at hf
  exact absurd hf (by decide)

theorem find?_reverse_range_eq (f : Nat → Bool) (n p : Nat) (hp : p ≤ n)
    (hf : f p = true) (hq : ∀ q, p < q → f q = false) :
    (List.range (n + 1)).reverse.find? f = some p := by
  induction n with
  | zero =>
    have : p = 0 := Nat.le_zero.mp hp
    subst this
    simp [List.range_succ, List.find?, hf]
  | succ n ih =>
    rw [List.range_succ, List.reverse_append, List.reverse_singleton, List.singleton_append]
    by_cases hpn : p = n + 1
    · subst hpn
      exact List.find?_cons_of_pos _ hf
    · rw [List.find?_cons_of_neg _ (by simp [hq (n + 1) (by omega)])]
      exact ih (by omega)

theorem rfindCode_eq_of_last (s : List Char) (p : Nat)
    (hf : hasCodeAt s p = true) (hq : ∀ q, p < q → hasCodeAt s q = false) :
    rfindCode s = p := by
  have hlt : p < s.length := hasCodeAt_lt_length s p hf
  unfold rfindCode
  rw [find?_reverse_range_eq (fun i => hasCodeAt s i) s.length p (by omega) hf hq]

theorem rfindCode_eq_npos (s : List Char) (hq : ∀ q, hasCodeAt s q = false) :
    rfindCode s = NPOS := by
  unfold rfindCode
  rw [List.find?_eq_none.mpr (fun q _ => by simp [hq q])]

/-- C1 counterexample: the input `"abcdefgh"` contains no `code=` marker
(its `rfind` returns `npos`), yet `get_code_from_message` returns `"efgh"`,
not the empty string: `npos + 5` wraps around to `4` in `size_t`
arithmetic, so the scan starts at index 4 of the input. -/
theorem c1_counterexample :
    rfindCode "abcdefgh".toList = NPOS ∧
    get_code_from_message "abcdefgh".toList = "efgh".toList ∧
    "efgh".toList ≠ [] := by
  refine ⟨by decide, by decide, by decide⟩

/-- C1 (amended): for every input of `std::string`-representable length,
if the marker occurs and `p` is its last occurrence, the result is the
maximal alphanumeric run immediately after `p + 5`; the example inputs
behave as claimed; but when the marker is absent the scan starts at
index `4` (wrap of `npos + 5`), so the result is the maximal alphanumeric
run from index 4, not necessarily the empty string. -/
theorem c1_get_code_amended (s : List Char) (p : Nat) (hlen : s.length + 5 < 2 ^ 64) :
    (hasCodeAt s p = true → (∀ q, p < q → hasCodeAt s q = false) →
      get_code_from_message s = (s.drop (p + 5)).takeWhile isAlnumAscii) ∧
    ((∀ q, hasCodeAt s q = false) →
      get_code_from_message s = (s.drop 4).takeWhile isAlnumAscii) ∧
    get_code_from_message "...&code=AbC123&state=xyz".toList = "AbC123".toList ∧
    get_code_from_message "code=".toList = [] := by
  refine ⟨fun hf hq => ?_, fun hq => ?_, by decide, by decide⟩
  · have hlt : p < s.length := hasCodeAt_lt_length s p hf
    unfold get_code_from_message
    rw [rfindCode_eq_of_last s p hf hq, Nat.mod_eq_of_lt (show p + 5 < 2 ^ 64 by omega)]
  · unfold get_code_from_message
    rw [rfindCode_eq_npos s hq]
    norm_num [NPOS]

/-- C1 witness: the amended theorem applied at the spec's example input. -/
theorem c1_get_code_amended_witness :
    get_code_from_message "...&code=AbC123&state=xyz".toList = "AbC123".toList := by
  have h := c1_get_code_amended "...&code=AbC123&state=xyz".toList 4 (by decide)
  exact h.2.2.1

/-- Reduction of an unbounded integer into the signed 32-bit range
`[-2147483648, 2147483648)`, modelling the two's-complement wraparound of
C++ `int` arithmetic. -/
def intWrap32 (n : Int) : Int := (n + 2147483648) % 4294967296 - 2147483648

/-- Embedding of the delay computation in `UserAccountCommunication::set_refresh_time`
(lines 435-441): `int miliseconds = std::max(seconds * 1000 - 66666, 60000);`
where `seconds` is an `int`, so both the multiplication and the subtraction
are 32-bit operations that wrap on overflow. -/
def set_refresh_time_ms (seconds : Int) : Int :=
  max (intWrap32 (intWrap32 (seconds * 1000) - 66666)) 60000

theorem intWrap32_eq_self (n : Int) (h1 : -2147483648 ≤ n) (h2 : n < 2147483648) :
    intWrap32 n = n := by
  unfold intWrap32
  omega

theorem intWrap32_eq_sub (n : Int) (h1 : 2147483648 ≤ n) (h2 : n < 6442450944) :
    intWrap32 n = n - 4294967296 := by
  unfold intWrap32
  omega

theorem intWrap32_eq_add (n : Int) (h1 : -6442450944 ≤ n) (h2 : n < -2147483648) :
    intWrap32 n = n + 4294967296 := by
  unfold intWrap32
  omega

theorem intWrap32_bounds (n : Int) :
    -2147483648 ≤ intWrap32 n ∧ intWrap32 n < 2147483648 := by
  unfold intWrap32
  omega

theorem refresh_delay_no_wrap (s : Int) (h1 : -2147416 ≤ s) (h2 : s ≤ 2147483) :
    set_refresh_time_ms s = max (s * 1000 - 66666) 60000 := by
  unfold set_refresh_time_ms
  rw [intWrap32_eq_self (s * 1000) (by omega) (by omega),
    intWrap32_eq_self (s * 1000 - 66666) (by omega) (by omega)]

theorem refresh_delay_double_wrap (s : Int) (h1 : 2147484 ≤ s) (h2 : s ≤ 2147550) :
    set_refresh_time_ms s = max (s * 1000 - 66666) 60000 := by
  unfold set_refresh_time_ms
  rw [intWrap32_eq_sub (s * 1000) (by omega) (by omega),
    show s * 1000 - 4294967296 - 66666 = s * 1000 - 66666 - 4294967296 by ring,
    intWrap32_eq_add (s * 1000 - 66666 - 4294967296) (by omega) (by omega),
    show s * 1000 - 66666 - 4294967296 + 4294967296 = s * 1000 - 66666 by ring]

/-- C2 counterexample: at `seconds = 3000000` the product `seconds * 1000`
overflows `int`, the computed delay is the floor value `60000`, and the
claimed formula over unbounded integers gives `2999933334` instead. -/
theorem c2_counterexample :
    set_refresh_time_ms 3000000 = 60000 ∧
    max ((3000000 : Int) * 1000 - 66666) 60000 = 2999933334 ∧
    set_refresh_time_ms 3000000 ≠ max ((3000000 : Int) * 1000 - 66666) 60000 := by
  refine ⟨by decide, by decide, by decide⟩

/-- C2 (amended): for every `seconds` with `-2147416 ≤ seconds ≤ 2147550`
(which covers every realistic time-to-expiry) the scheduled delay equals
`max (seconds * 1000 - 66666) 60000` computed over unbounded integers; in
particular `1000 ↦ 933334` and `10 ↦ 60000`. -/
theorem c2_refresh_delay_amended (seconds : Int)
    (h1 : -2147416 ≤ seconds) (h2 : seconds ≤ 2147550) :
    set_refresh_time_ms seconds = max (seconds * 1000 - 66666) 60000 ∧
    set_refresh_time_ms 1000 = 933334 ∧
    set_refresh_time_ms 10 = 60000 := by
  refine ⟨?_, by decide, by decide⟩
  rcases le_or_lt seconds 2147483 with h | h
  · exact refresh_delay_no_wrap seconds h1 h
  · exact refresh_delay_double_wrap seconds (by omega) h2

/-- C2 witness: the amended theorem evaluated at the spec's example
`seconds_until_expiry = 1000`. -/
theorem c2_refresh_delay_amended_witness :
    set_refresh_time_ms 1000 = 933334 := by
  have h := c2_refresh_delay_amended 1000 (by norm_num) (by norm_num)
  exact h.2.1

/-- C10 counterexample: at `seconds = 2147500 > INT_MAX / 1000` the product
`seconds * 1000` does wrap modulo `2^32`, yet the final delay still equals
`max (seconds * 1000 - 66666) 60000` over unbounded integers, because the
subsequent subtraction `- 66666` wraps back: the claim's "for every seconds
greater than INT_MAX / 1000 the scheduled delay no longer equals" fails. -/
theorem c10_counterexample :
    (2147483647 : Int) / 1000 < 2147500 ∧
    intWrap32 ((2147500 : Int) * 1000) ≠ (2147500 : Int) * 1000 ∧
    set_refresh_time_ms 2147500 = max ((2147500 : Int) * 1000 - 66666) 60000 := by
  refine ⟨by decide, by decide, by decide⟩

/-- C10 (amended): for every `int` value `seconds > INT_MAX / 1000 = 2147483`
the product `seconds * 1000` wraps modulo `2^32`; the scheduled delay
differs from `max (seconds * 1000 - 66666) 60000` over unbounded integers
exactly when `seconds > 2147550`; for `2147483 < seconds ≤ 2147550` the
subtraction wraps back and the delay coincides with the unbounded value. -/
theorem c10_wrap_amended (seconds : Int)
    (h1 : 2147483 < seconds) (h2 : seconds ≤ 2147483647) :
    intWrap32 (seconds * 1000) ≠ seconds * 1000 ∧
    (2147550 < seconds → set_refresh_time_ms seconds ≠ max (seconds * 1000 - 66666) 60000) ∧
    (seconds ≤ 2147550 → set_refresh_time_ms seconds = max (seconds * 1000 - 66666) 60000) := by
  refine ⟨?_, fun hgt => ?_, fun hle => refresh_delay_double_wrap seconds (by omega) hle⟩
  · have hb := intWrap32_bounds (seconds * 1000)
    omega
  · have hb := intWrap32_bounds (intWrap32 (seconds * 1000) - 66666)
    have hR : max (seconds * 1000 - 66666) 60000 = seconds * 1000 - 66666 :=
      max_eq_left (by omega)
    rw [hR]
    unfold set_refresh_time_ms
    exact ne_of_lt (max_lt_iff.mpr ⟨by omega, by omega⟩)

/-- C10 witness: the amended theorem evaluated at `seconds = 2200000`
(a token lifetime of about 25.5 days), where the wrap makes the scheduled
delay differ from the unbounded-integer formula. -/
theorem c10_wrap_amended_witness :
    set_refresh_time_ms 2200000 ≠ max ((2200000 : Int) * 1000 - 66666) 60000 := by
  have h := c10_wrap_amended 2200000 (by norm_num) (by norm_num)
  exact h.2.1 (by norm_num)

/-- The 62-character alphabet of `CodeChalengeGenerator::generate_code_verifier`
(line 493). -/
def pkceChars : List Char :=
  "abcdefghijklmnopqrstuvwxyzABCDEFGHIJKLMNOPQRSTUVWXYZ0123456789".toList

/-- Embedding of `CodeChalengeGenerator::generate_code_verifier` (lines
491-502): the loop appends `chars[distribution(gen)]` `length` times, where
`distribution = uniform_int_distribution(0, chars.size() - 1)` guarantees
every drawn index lies in `[0, 61]`; the pseudorandom source is abstracted
as the sequence `draws` of such indices. -/
def generate_code_verifier (length : Nat) (draws : Nat → Fin 62) : List Char :=
  (List.range length).map (fun i => pkceChars.getD (draws i).val 'a')

/-- Embedding of `CodeChalengeGenerator::generate_verifier` (lines 471-477):
`generate_code_verifier` at length 40. -/
def generate_verifier (draws : Nat → Fin 62) : List Char :=
  generate_code_verifier 40 draws

theorem pkceChars_alnum (d : Fin 62) : isAlnumAscii (pkceChars.getD d.val 'a') = true := by
  revert d
  decide

/-- C4: every verifier produced by `generate_verifier` has length exactly 40
and all its characters are ASCII alphanumeric, whatever random indices the
distribution delivers. -/
theorem c4_verifier_shape (draws : Nat → Fin 62) :
    (generate_verifier draws).length = 40 ∧
    (generate_verifier draws).all isAlnumAscii = true := by
  constructor
  · simp [generate_verifier, generate_code_verifier]
  · rw [List.all_eq_true]
    intro c hc
    rw [generate_verifier, generate_code_verifier, List.mem_map] at hc
    obtain ⟨i, _, rfl⟩ := hc
    exact pkceChars_alnum (draws i)

/-- Kinds of pending account actions (`UserAccountActionID` values used by
`UserAccountCommunication`). -/
inductive UAActionID where
  | connect_printer_models
  | connect_status
  | avatar
  | connect_data_from_uuid
  | test_with_refresh
  | refresh
deriving DecidableEq, Repr

/-- A pending action: its kind and its string payload (callbacks are always
`nullptr` in the calls made by `UserAccountCommunication`). -/
structure PendingAction where
  kind : UAActionID
  payload : String
deriving DecidableEq, Repr

/-- Modelled from the spec: the `UserAccountSession` collaborator
(`§3`/`§6`: token state plus a FIFO action queue with
`enqueue_action`/`enqueue_refresh`/`enqueue_test_with_refresh` appending one
pending action and `process_action_queue` draining the whole queue in order;
its implementation is outside this source file).  `processed` is the history
of actions already drained, kept for stating temporal properties. -/
structure UserAccountSession where
  initialized : Bool
  queue : List PendingAction
  processed : List PendingAction
  access_token : String
  refresh_token : String
  shared_session_key : String
  next_token_timeout : Int
deriving DecidableEq, Repr

/-- Modelled from the spec: `Session::enqueue_action` appends one pending
action of the given kind at the tail of the queue. -/
def Session.enqueue_action (sess : UserAccountSession) (kind : UAActionID)
    (payload : String) : UserAccountSession :=
  { sess with queue := sess.queue ++ [⟨kind, payload⟩] }

/-- Modelled from the spec: `Session::enqueue_test_with_refresh` appends one
test-with-refresh action. -/
def Session.enqueue_test_with_refresh (sess : UserAccountSession) : UserAccountSession :=
  Session.enqueue_action sess .test_with_refresh ""

/-- Modelled from the spec: `Session::enqueue_refresh` appends one refresh
action. -/
def Session.enqueue_refresh (sess : UserAccountSession) : UserAccountSession :=
  Session.enqueue_action sess .refresh ""

/-- Modelled from the spec: `Session::process_action_queue` drains and
processes the entire queue in FIFO order. -/
def Session.process_action_queue (sess : UserAccountSession) : UserAccountSession :=
  { sess with queue := [], processed := sess.processed ++ sess.queue }

/-- State of a `UserAccountCommunication` object: the session collaborator,
the worker-control flags `m_thread_stop` / `m_thread_wakeup` /
`m_window_is_active`, and whether the worker loop has exited. -/
structure CommState where
  session : UserAccountSession
  thread_stop : Bool
  thread_wakeup : Bool
  window_is_active : Bool
  exited : Bool
deriving DecidableEq, Repr

/-- Embedding of `UserAccountCommunication::wakeup_session_thread` (lines
426-433): sets `m_thread_wakeup` under the control lock and signals the
condition variable. -/
def wakeup_session_thread (s : CommState) : CommState :=
  { s with thread_wakeup := true }

/-- Embedding of `enqueue_connect_printer_models_action` (lines 316-327):
guard on `is_initialized`, enqueue, wake. -/
def enqueue_connect_printer_models_action (s : CommState) : CommState :=
  if s.session.initialized then
    wakeup_session_thread
      { s with session := Session.enqueue_action s.session .connect_printer_models "" }
  else s

/-- Embedding of `enqueue_connect_status_action` (lines 329-340). -/
def enqueue_connect_status_action (s : CommState) : CommState :=
  if s.session.initialized then
    wakeup_session_thread
      { s with session := Session.enqueue_action s.session .connect_status "" }
  else s

/-- Embedding of `enqueue_test_connection` (lines 341-352). -/
def enqueue_test_connection (s : CommState) : CommState :=
  if s.session.initialized then
    wakeup_session_thread { s with session := Session.enqueue_test_with_refresh s.session }
  else s

/-- Embedding of `enqueue_avatar_action` (lines 354-365). -/
def enqueue_avatar_action (url : String) (s : CommState) : CommState :=
  if s.session.initialized then
    wakeup_session_thread { s with session := Session.enqueue_action s.session .avatar url }
  else s

/-- Embedding of `enqueue_printer_data_action` (lines 367-378). -/
def enqueue_printer_data_action (uuid : String) (s : CommState) : CommState :=
  if s.session.initialized then
    wakeup_session_thread
      { s with session := Session.enqueue_action s.session .connect_data_from_uuid uuid }
  else s

/-- Embedding of `enqueue_refresh` (lines 379-390). -/
def enqueue_refresh (s : CommState) : CommState :=
  if s.session.initialized then
    wakeup_session_thread { s with session := Session.enqueue_refresh s.session }
  else s

/-- Embedding of one iteration of the worker loop body of
`init_session_thread` (lines 396-415): after the condition variable wait,
check `m_thread_stop` (exit), then skip the drain when the window is
inactive and no explicit wakeup was requested, otherwise clear
`m_thread_wakeup` and drain the queue under the session lock. -/
def session_thread_iteration (s : CommState) : CommState :=
  if s.exited then s
  else if s.thread_stop then { s with exited := true }
  else if !s.window_is_active && !s.thread_wakeup then s
  else
    { s with thread_wakeup := false,
             session := Session.process_action_queue s.session }

/-- Events interleaved with the worker: one worker-loop iteration, the
destructor's stop request (lines 182-197), window (de)activation
(lines 418-424), and the six enqueue methods. -/
inductive CommEvent where
  | worker_iteration
  | stop_request
  | activate_window (b : Bool)
  | ev_connect_printer_models
  | ev_connect_status
  | ev_test_connection
  | ev_avatar (url : String)
  | ev_printer_data (uuid : String)
  | ev_refresh

/-- Interleaving semantics: apply one event to the state. -/
def comm_step (e : CommEvent) (s : CommState) : CommState :=
  match e with
  | .worker_iteration => session_thread_iteration s
  | .stop_request => { s with thread_stop := true }
  | .activate_window b => { s with window_is_active := b }
  | .ev_connect_printer_models => enqueue_connect_printer_models_action s
  | .ev_connect_status => enqueue_connect_status_action s
  | .ev_test_connection => enqueue_test_connection s
  | .ev_avatar url => enqueue_avatar_action url s
  | .ev_printer_data uuid => enqueue_printer_data_action uuid s
  | .ev_refresh => enqueue_refresh s

/-- A run of the system: fold a list of events over a starting state. -/
def comm_run (evs : List CommEvent) (s : CommState) : CommState :=
  evs.foldl (fun st e => comm_step e st) s

theorem comm_step_stop_invariant (e : CommEvent) (s : CommState)
    (h : s.thread_stop = true) :
    (comm_step e s).thread_stop = true ∧
    (comm_step e s).session.processed = s.session.processed := by
  cases e <;>
    simp [comm_step, session_thread_iteration, enqueue_connect_printer_models_action,
      enqueue_connect_status_action, enqueue_test_connection, enqueue_avatar_action,
      enqueue_printer_data_action, enqueue_refresh, wakeup_session_thread,
      Session.enqueue_action, Session.enqueue_test_with_refresh, Session.enqueue_refresh,
      h] <;>
    split <;> simp [h]

/-- C5: in any live iteration of the worker loop, if neither the window is
active nor a wakeup was requested (and stop is unset) the state is returned
unchanged — in particular nothing is drained; whereas if a wakeup was
requested (and stop is unset) the entire queue is drained in order,
regardless of window activity. -/
theorem c5_worker_gate (s : CommState) (hrun : s.exited = false) :
    (s.thread_stop = false → s.window_is_active = false → s.thread_wakeup = false →
      session_thread_iteration s = s) ∧
    (s.thread_stop = false → s.thread_wakeup = true →
      (session_thread_iteration s).session.processed = s.session.processed ++ s.session.queue ∧
      (session_thread_iteration s).session.queue = []) := by
  constructor
  · intro hstop hwin hwake
    simp [session_thread_iteration, hrun, hstop, hwin, hwake]
  · intro hstop hwake
    simp [session_thread_iteration, hrun, hstop, hwake, Session.process_action_queue]

/-- A sample session state with one queued action, used by the concrete
witnesses below. -/
def demoSession : UserAccountSession :=
  { initialized := true
    queue := [⟨.refresh, ""⟩]
    processed := []
    access_token := "acc"
    refresh_token := "ref"
    shared_session_key := "key"
    next_token_timeout := 171717 }

/-- C5 witness: a concrete inactive-window state woken by an explicit
wakeup drains its queued refresh action. -/
theorem c5_worker_gate_witness :
    (session_thread_iteration
        ⟨demoSession, false, true, false, false⟩).session.processed = [⟨.refresh, ""⟩] ∧
    (session_thread_iteration
        ⟨demoSession, false, true, false, false⟩).session.queue = [] := by
  have h := (c5_worker_gate ⟨demoSession, false, true, false, false⟩ rfl).2 rfl rfl
  exact ⟨h.1, h.2⟩

/-- C6: once `m_thread_stop` is set, the next worker iteration exits
without draining anything, and no sequence of further events — including
enqueues arriving after the stop request — ever gets processed: the
processed history never grows again. -/
theorem c6_stop_no_further_processing (s : CommState) (evs : List CommEvent)
    (h : s.thread_stop = true) :
    (s.exited = false → (session_thread_iteration s).exited = true ∧
      (session_thread_iteration s).session.processed = s.session.processed) ∧
    (comm_run evs s).session.processed = s.session.processed := by
  constructor
  · intro hrun
    constructor <;> simp [session_thread_iteration, hrun, h]
  · induction evs generalizing s with
    | nil => rfl
    | cons e rest ih =>
      have hstep := comm_step_stop_invariant e s h
      rw [comm_run, List.foldl_cons]
      rw [show List.foldl (fun st e => comm_step e st) (comm_step e s) rest
            = comm_run rest (comm_step e s) from rfl]
      rw [ih (comm_step e s) hstep.1, hstep.2]

/-- C6 witness: with stop set, a worker iteration followed by a refresh
enqueue and another worker iteration processes nothing. -/
theorem c6_stop_no_further_processing_witness :
    (comm_run [.worker_iteration, .ev_refresh, .worker_iteration]
        ⟨demoSession, true, false, true, false⟩).session.processed = [] := by
  have h := (c6_stop_no_further_processing
      ⟨demoSession, true, false, true, false⟩
      [.worker_iteration, .ev_refresh, .worker_iteration] rfl).2
  exact h

/-- C7: each of the six enqueue methods leaves the whole state unchanged
(no action queued, no wakeup, no surfaced error) when the session is not
initialized, and otherwise appends exactly one pending action of the
matching kind and raises the wakeup flag. -/
theorem c7_enqueue_guard (s : CommState) (url uuid : String) :
    (s.session.initialized = false →
      enqueue_connect_printer_models_action s = s ∧
      enqueue_connect_status_action s = s ∧
      enqueue_test_connection s = s ∧
      enqueue_avatar_action url s = s ∧
      enqueue_printer_data_action uuid s = s ∧
      enqueue_refresh s = s) ∧
    (s.session.initialized = true →
      ((enqueue_connect_printer_models_action s).session.queue
          = s.session.queue ++ [⟨.connect_printer_models, ""⟩] ∧
        (enqueue_connect_printer_models_action s).thread_wakeup = true) ∧
      ((enqueue_connect_status_action s).session.queue
          = s.session.queue ++ [⟨.connect_status, ""⟩] ∧
        (enqueue_connect_status_action s).thread_wakeup = true) ∧
      ((enqueue_test_connection s).session.queue
          = s.session.queue ++ [⟨.test_with_refresh, ""⟩] ∧
        (enqueue_test_connection s).thread_wakeup = true) ∧
      ((enqueue_avatar_action url s).session.queue
          = s.session.queue ++ [⟨.avatar, url⟩] ∧
        (enqueue_avatar_action url s).thread_wakeup = true) ∧
      ((enqueue_printer_data_action uuid s).session.queue
          = s.session.queue ++ [⟨.connect_data_from_uuid, uuid⟩] ∧
        (enqueue_printer_data_action uuid s).thread_wakeup = true) ∧
      ((enqueue_refresh s).session.queue
          = s.session.queue ++ [⟨.refresh, ""⟩] ∧
        (enqueue_refresh s).thread_wakeup = true)) := by
  constructor <;> intro h <;>
    simp [enqueue_connect_printer_models_action, enqueue_connect_status_action,
      enqueue_test_connection, enqueue_avatar_action, enqueue_printer_data_action,
      enqueue_refresh, wakeup_session_thread, Session.enqueue_action,
      Session.enqueue_test_with_refresh, Session.enqueue_refresh, h]

/-- C7 witness: on an initialized session with one queued action, a refresh
enqueue appends exactly one refresh action and raises the wakeup flag; on a
non-initialized session the call is a no-op. -/
theorem c7_enqueue_guard_witness :
    (enqueue_refresh ⟨demoSession, false, false, true, false⟩).session.queue
        = [⟨.refresh, ""⟩, ⟨.refresh, ""⟩] ∧
    (enqueue_refresh ⟨demoSession, false, false, true, false⟩).thread_wakeup = true ∧
    enqueue_refresh ⟨{ demoSession with initialized := false }, false, false, true, false⟩
        = ⟨{ demoSession with initialized := false }, false, false, true, false⟩ := by
  have h1 := ((c7_enqueue_guard ⟨demoSession, false, false, true, false⟩ "" "").2 rfl).2.2.2.2.2
  have h2 := (c7_enqueue_guard
      ⟨{ demoSession with initialized := false }, false, false, true, false⟩ "" "").1 rfl
  exact ⟨h1.1, h1.2, h2.2.2.2.2.2⟩

/-- A write performed against the platform secret store by `save_secret`
(lines 79-104): the per-field scope `opt`, the username slot `key`, and the
stored `value`. -/
structure SecretWrite where
  opt : String
  key : String
  value : String
deriving DecidableEq, Repr

/-- Embedding of `UserAccountCommunication::set_username` (lines 199-217):
stores the new username and, when the platform secret store is available,
performs exactly one `save_secret("tokens", shared_session_key, tokens)`
write, where `tokens` is the pipe-delimited bundle when remember-session is
enabled and the empty string otherwise; with no secret store no write
happens.  Returns the new username member and the list of writes
performed. -/
def set_username (username : String) (remember_session : Bool)
    (secret_store_ok : Bool) (sess : UserAccountSession) :
    String × List SecretWrite :=
  (username,
    if secret_store_ok then
      [⟨"tokens", sess.shared_session_key,
        if remember_session then
          sess.access_token ++ "|" ++ sess.refresh_token ++ "|" ++
            toString sess.next_token_timeout
        else ""⟩]
    else [])

/-- C8: with the secret store available, `set_username` with
remember-session disabled performs exactly one write of the empty string
under the `"tokens"` scope and the session's shared key (a real write, not
a skipped one), and with remember-session enabled it writes the
pipe-delimited `access|refresh|timeout` bundle under the same key. -/
theorem c8_set_username_persistence (username : String) (sess : UserAccountSession) :
    (set_username username false true sess).2 =
      [⟨"tokens", sess.shared_session_key, ""⟩] ∧
    (set_username username true true sess).2 =
      [⟨"tokens", sess.shared_session_key,
        sess.access_token ++ "|" ++ sess.refresh_token ++ "|" ++
          toString sess.next_token_timeout⟩] :=
  ⟨rfl, rfl⟩

/-- The two error conditions of `std::stoll`. -/
inductive StollError where
  | invalid_argument
  | out_of_range
deriving DecidableEq, Repr

/-- Whitespace as classified by `isspace` in the default locale, which
`std::stoll` skips before the number. -/
def cppIsSpace (c : Char) : Bool :=
  c = ' ' || c = '\t' || c = '\n' || c = '\x0b' || c = '\x0c' || c = '\r'

/-- Decimal digit test. -/
def isDigitAscii (c : Char) : Bool := '0' ≤ c && c ≤ '9'

/-- Numeric value of a run of decimal digits. -/
def digitsVal (l : List Char) : Nat :=
  l.foldl (fun a c => a * 10 + (c.toNat - 48)) 0

/-- Embedding of `std::stoll` on base 10: skip whitespace, accept an
optional sign, then require at least one decimal digit (else
`std::invalid_argument`); parse the maximal digit run, ignore the rest;
values outside `long long` raise `std::out_of_range`. -/
def stoll (s : List Char) : Except StollError Int :=
  let l := s.dropWhile cppIsSpace
  let signed : Int × List Char :=
    match l with
    | '-' :: rest => (-1, rest)
    | '+' :: rest => (1, rest)
    | _ => (1, l)
  let ds := signed.2.takeWhile isDigitAscii
  if ds = [] then .error .invalid_argument
  else
    let v : Int := signed.1 * (digitsVal ds : Int)
    if v < -9223372036854775808 ∨ 9223372036854775807 < v then .error .out_of_range
    else .ok v

/-- Embedding of `boost::split(token_list, tokens, boost::is_any_of("|"),
boost::token_compress_off)`: split at every `|`, producing `n + 1` tokens
for `n` delimiters (the empty input yields one empty token). -/
def splitOnPipe : List Char → List (List Char)
  | [] => [[]]
  | c :: rest =>
    let r := splitOnPipe rest
    if c = '|' then [] :: r
    else (c :: r.headD []) :: r.tail

/-- Embedding of the token-recovery fragment of the
`UserAccountCommunication` constructor (lines 145-172), for the path where
the secret store holds the combined `"tokens"` record: split the stored
bundle on `|` (as `boost::split` with `token_compress_off`), read
`access`/`refresh`/`next_timeout` positionally, then evaluate
`next_timeout.empty() ? 0 : std::stoll(next_timeout)` — unguarded, so a
`stoll` failure propagates out of the constructor — and finally clear the
access token when the remaining time `next - now` is not positive, else
schedule the refresh timer for `(int)remain_time` seconds.  Returns the
access token, refresh token and scheduled refresh delay, or the escaping
exception. -/
def constructor_recover (tokens : List Char) (now : Int) :
    Except StollError (List Char × List Char × Option Int) :=
  let token_list := splitOnPipe tokens
  let access_token := token_list.getD 0 []
  let refresh_token := token_list.getD 1 []
  let next_timeout := token_list.getD 2 []
  match (if next_timeout = [] then .ok 0 else stoll next_timeout :
      Except StollError Int) with
  | .error e => .error e
  | .ok next =>
    let remain_time := next - now
    if remain_time ≤ 0 then .ok ([], refresh_token, none)
    else .ok (access_token, refresh_token, some (set_refresh_time_ms (intWrap32 remain_time)))

/-- C9: the stored expiry-timeout field, whenever non-empty, goes through
`std::stoll` unguarded: if `stoll` fails the constructor throws that very
exception (no degradation to absent tokens), and conversely construction
completes only when the field is empty or `stoll` accepts it. -/
theorem c9_unguarded_stoll (tokens : List Char) (now : Int) :
    ((splitOnPipe tokens).getD 2 [] ≠ [] →
      ∀ e, stoll ((splitOnPipe tokens).getD 2 []) = .error e →
        constructor_recover tokens now = .error e) ∧
    (∀ r, constructor_recover tokens now = .ok r →
      (splitOnPipe tokens).getD 2 [] = [] ∨
        ∃ v, stoll ((splitOnPipe tokens).getD 2 []) = .ok v) := by
  constructor
  · intro hne e herr
    unfold constructor_recover
    simp only [if_neg hne, herr]
  · intro r hok
    unfold constructor_recover at hok
    by_cases hempty : (splitOnPipe tokens).getD 2 [] = []
    · exact Or.inl hempty
    · refine Or.inr ?_
      simp only [if_neg hempty] at hok
      cases hval : stoll ((splitOnPipe tokens).getD 2 []) with
      | error e => rw [hval] at hok; exact absurd hok (by simp)
      | ok v => exact ⟨v, rfl⟩

/-- C9 witness: the stored bundle `"acc|ref|notanumber"` has a non-empty,
non-parseable timeout field, and construction propagates
`std::invalid_argument`. -/
theorem c9_unguarded_stoll_witness :
    constructor_recover "acc|ref|notanumber".toList 0 = .error .invalid_argument := by
  have h := (c9_unguarded_stoll "acc|ref|notanumber".toList 0).1 (by decide)
    StollError.invalid_argument
  exact h (by rfl)

/-- Truncation to a 32-bit word. -/
def w32 (n : Nat) : Nat := n % 4294967296

/-- Right rotation of a 32-bit word. -/
def rotr32 (r x : Nat) : Nat := w32 ((x >>> r) ||| (x <<< (32 - r)))

/-- The SHA-256 choice function `Ch(x,y,z) = (x ∧ y) ⊕ (¬x ∧ z)`. -/
def shaCh (x y z : Nat) : Nat := (x &&& y) ^^^ ((x ^^^ 4294967295) &&& z)

/-- The SHA-256 majority function. -/
def shaMaj (x y z : Nat) : Nat := (x &&& y) ^^^ (x &&& z) ^^^ (y &&& z)

/-- SHA-256 `Σ₀`. -/
def bigS0 (x : Nat) : Nat := rotr32 2 x ^^^ rotr32 13 x ^^^ rotr32 22 x

/-- SHA-256 `Σ₁`. -/
def bigS1 (x : Nat) : Nat := rotr32 6 x ^^^ rotr32 11 x ^^^ rotr32 25 x

/-- SHA-256 `σ₀`. -/
def smallS0 (x : Nat) : Nat := rotr32 7 x ^^^ rotr32 18 x ^^^ (x >>> 3)

/-- SHA-256 `σ₁`. -/
def smallS1 (x : Nat) : Nat := rotr32 17 x ^^^ rotr32 19 x ^^^ (x >>> 10)

/-- The 64 SHA-256 round constants (FIPS 180-4 section 4.2.2, written in
decimal). -/
def shaK : List Nat :=
  [1116352408, 1899447441, 3049323471, 3921009573, 961987163,
   1508970993, 2453635748, 2870763221, 3624381080, 310598401,
   607225278, 1426881987, 1925078388, 2162078206, 2614888103,
   3248222580, 3835390401, 4022224774, 264347078, 604807628,
   770255983, 1249150122, 1555081692, 1996064986, 2554220882,
   2821834349, 2952996808, 3210313671, 3336571891, 3584528711,
   113926993, 338241895, 666307205, 773529912, 1294757372,
   1396182291, 1695183700, 1986661051, 2177026350, 2456956037,
   2730485921, 2820302411, 3259730800, 3345764771, 3516065817,
   3600352804, 4094571909, 275423344, 430227734, 506948616,
   659060556, 883997877, 958139571, 1322822218, 1537002063,
   1747873779, 1955562222, 2024104815, 2227730452, 2361852424,
   2428436474, 2756734187, 3204031479, 3329325298]

/-- The SHA-256 initial hash state (FIPS 180-4 section 5.3.3, in decimal). -/
def shaH0 : List Nat :=
  [1779033703, 3144134277, 1013904242, 2773480762, 1359893119,
   2600822924, 528734635, 1541459225]

/-- Big-endian byte decomposition of a value into `n` bytes. -/
def beBytes : Nat → Nat → List Nat
  | 0, _ => []
  | n + 1, v => beBytes n (v / 256) ++ [v % 256]

/-- SHA-256 message padding: append `0x80`, zeros up to 56 mod 64, and the
64-bit big-endian bit length. -/
def sha256pad (msg : List Nat) : List Nat :=
  msg ++ [128] ++ List.replicate ((64 - (msg.length + 9) % 64) % 64) 0 ++
    beBytes 8 (msg.length * 8)

/-- Big-endian grouping of bytes into 32-bit words. -/
def bytesToWords : List Nat → List Nat
  | b0 :: b1 :: b2 :: b3 :: rest =>
    (b0 * 16777216 + b1 * 65536 + b2 * 256 + b3) :: bytesToWords rest
  | _ => []

/-- Fuelled split into 64-byte chunks. -/
def chunks64Go : Nat → List Nat → List (List Nat)
  | 0, _ => []
  | _, [] => []
  | fuel + 1, l => l.take 64 :: chunks64Go fuel (l.drop 64)

/-- Split a byte list into 64-byte chunks. -/
def chunks64 (l : List Nat) : List (List Nat) := chunks64Go l.length l

/-- Extension of the 16-word message schedule by `n` further words. -/
def extendW : List Nat → Nat → List Nat
  | ws, 0 => ws
  | ws, n + 1 =>
    let t := ws.length
    extendW (ws ++ [w32 (smallS1 (ws.getD (t - 2) 0) + ws.getD (t - 7) 0 +
      smallS0 (ws.getD (t - 15) 0) + ws.getD (t - 16) 0)]) n

/-- One SHA-256 compression round on the state `[a,b,c,d,e,f,g,h]` with a
round constant and a schedule word. -/
def shaRound (s : List Nat) (kw : Nat × Nat) : List Nat :=
  match s with
  | [a, b, c, d, e, f, g, h] =>
    let t1 := w32 (h + bigS1 e + shaCh e f g + kw.1 + kw.2)
    let t2 := w32 (bigS0 a + shaMaj a b c)
    [w32 (t1 + t2), a, b, c, w32 (d + t1), e, f, g]
  | other => other

/-- SHA-256 compression of one 64-byte chunk into the running hash state. -/
def shaCompress (hs : List Nat) (chunk : List Nat) : List Nat :=
  let ws := extendW (bytesToWords chunk) 48
  let fin := (shaK.zip ws).foldl shaRound hs
  List.zipWith (fun x y => w32 (x + y)) hs fin

/-- Modelled from the spec: the digest used by
`CodeChalengeGenerator::generate_chalenge` is computed by platform crypto
APIs (wincrypt / CommonCrypto / OpenSSL, lines 504-569) that live outside
this repository; section 4.2 of the spec requires it to be byte-for-byte
standard SHA-256, embedded here in full (padding, schedule, 64 rounds).
Input and output are byte lists. -/
def sha256 (msg : List Nat) : List Nat :=
  (((chunks64 (sha256pad msg)).foldl shaCompress shaH0).map (beBytes 4)).flatten

/-- SHA-256 test vector: the digest of `"abc"` (bytes `[97, 98, 99]`). -/
example : sha256 [97, 98, 99] =
    [186, 120, 22, 191, 143, 1, 207, 234, 65, 65, 64, 222, 93, 174, 34, 35,
     176, 3, 97, 163, 150, 23, 122, 156, 180, 16, 255, 97, 242, 0, 21, 173] := by
  decide

/-- The standard base64 alphabet. -/
def b64StdTable : List Char :=
  "ABCDEFGHIJKLMNOPQRSTUVWXYZabcdefghijklmnopqrstuvwxyz0123456789+/".toList

/-- The URL-safe base64 alphabet (`+` and `/` replaced by `-` and `_`). -/
def b64UrlTable : List Char :=
  "ABCDEFGHIJKLMNOPQRSTUVWXYZabcdefghijklmnopqrstuvwxyz0123456789-_".toList

/-- Character of the standard base64 alphabet at a 6-bit index. -/
def b64Char (n : Nat) : Char := b64StdTable.getD n 'A'

/-- Character of the URL-safe base64 alphabet at a 6-bit index. -/
def b64UrlChar (n : Nat) : Char := b64UrlTable.getD n 'A'

/-- Modelled from the spec: `boost::beast::detail::base64::encode` (an
external library): standard RFC 4648 base64 with `=` padding, processing
three input bytes into four output characters. -/
def base64StdEncode : List Nat → List Char
  | [] => []
  | [a] => [b64Char (a / 4), b64Char (a % 4 * 16), '=', '=']
  | [a, b] => [b64Char (a / 4), b64Char (a % 4 * 16 + b / 16), b64Char (b % 16 * 4), '=']
  | a :: b :: c :: rest =>
    b64Char (a / 4) :: b64Char (a % 4 * 16 + b / 16) :: b64Char (b % 16 * 4 + c / 64) ::
      b64Char (c % 64) :: base64StdEncode rest

/-- The character substitution done by `std::replace` in
`CodeChalengeGenerator::base64_encode`: `+ ↦ -` and `/ ↦ _`. -/
def replaceSave (c : Char) : Char := if c = '+' then '-' else if c = '/' then '_' else c

/-- The `while (output.back() == '=') output.pop_back();` loop of
`CodeChalengeGenerator::base64_encode`: removal of all trailing `=`.
(The C++ loop would call `back()` on an empty string only for an empty
encoding, which never arises from a 32-byte digest; the model returns the
empty list there.) -/
def stripTrailingEq (l : List Char) : List Char :=
  (l.reverse.dropWhile (· == '=')).reverse

/-- Embedding of `CodeChalengeGenerator::base64_encode` (lines 478-490):
standard base64, then `+`/`/` substitution, then trailing-`=` removal. -/
def base64_encode (input : List Nat) : List Char :=
  stripTrailingEq ((base64StdEncode input).map replaceSave)

/-- Embedding of `CodeChalengeGenerator::generate_chalenge` (lines 455-470):
`base64_encode(sha256(verifier))`.  The `catch` branch returning an empty
challenge is unreachable here because the embedded digest is total. -/
def generate_chalenge (verifier : List Nat) : List Char :=
  base64_encode (sha256 verifier)

/-- The spec's formulation `base64url_nopad`: base64 over the URL-safe
alphabet with no padding emitted at all, written independently of the
encode-replace-strip pipeline of the source. -/
def base64UrlNoPad : List Nat → List Char
  | [] => []
  | [a] => [b64UrlChar (a / 4), b64UrlChar (a % 4 * 16)]
  | [a, b] => [b64UrlChar (a / 4), b64UrlChar (a % 4 * 16 + b / 16), b64UrlChar (b % 16 * 4)]
  | a :: b :: c :: rest =>
    b64UrlChar (a / 4) :: b64UrlChar (a % 4 * 16 + b / 16) :: b64UrlChar (b % 16 * 4 + c / 64) ::
      b64UrlChar (c % 64) :: base64UrlNoPad rest

theorem replaceSave_b64Char (n : Nat) : replaceSave (b64Char n) = b64UrlChar n := by
  by_cases h : n < 64
  · have hfin : ∀ m : Fin 64, replaceSave (b64Char m.val) = b64UrlChar m.val := by decide
    exact hfin ⟨n, h⟩
  · have h1 : b64StdTable.length ≤ n := by
      have : b64StdTable.length = 64 := rfl
      omega
    have h2 : b64UrlTable.length ≤ n := by
      have : b64UrlTable.length = 64 := rfl
      omega
    rw [b64Char, b64UrlChar, List.getD_eq_default _ _ h1, List.getD_eq_default _ _ h2]
    rfl

theorem replaceSave_pad : replaceSave '=' = '=' := rfl

theorem b64UrlChar_beq_pad (n : Nat) : (b64UrlChar n == '=') = false := by
  by_cases h : n < 64
  · have hfin : ∀ m : Fin 64, (b64UrlChar m.val == '=') = false := by decide
    exact hfin ⟨n, h⟩
  · have h2 : b64UrlTable.length ≤ n := by
      have : b64UrlTable.length = 64 := rfl
      omega
    rw [b64UrlChar, List.getD_eq_default _ _ h2]
    rfl

theorem dropWhile_append_of_ne_nil {α : Type} (p : α → Bool) (xs ys : List α)
    (h : ys.dropWhile p ≠ []) :
    (ys ++ xs).dropWhile p = ys.dropWhile p ++ xs := by
  induction ys with
  | nil => exact absurd rfl h
  | cons a t ih =>
    by_cases hpa : p a = true
    · rw [List.cons_append, List.dropWhile_cons_of_pos hpa, List.dropWhile_cons_of_pos hpa]
      exact ih (by rwa [List.dropWhile_cons_of_pos hpa] at h)
    · rw [List.cons_append, List.dropWhile_cons_of_neg hpa, List.dropWhile_cons_of_neg hpa,
        List.cons_append]

theorem stripTrailingEq_append (xs ys : List Char) (h : stripTrailingEq ys ≠ []) :
    stripTrailingEq (xs ++ ys) = xs ++ stripTrailingEq ys := by
  have hne : ys.reverse.dropWhile (· == '=') ≠ [] := by
    intro hnil
    apply h
    rw [stripTrailingEq, hnil]
    rfl
  rw [stripTrailingEq, List.reverse_append,
    dropWhile_append_of_ne_nil _ xs.reverse ys.reverse hne, List.reverse_append,
    List.reverse_reverse, stripTrailingEq]

theorem strip_pad2 (u1 u2 : Char) (h : (u2 == '=') = false) :
    stripTrailingEq [u1, u2, '=', '='] = [u1, u2] := by
  simp [stripTrailingEq, List.dropWhile_cons, h]

theorem strip_pad1 (u1 u2 u3 : Char) (h : (u3 == '=') = false) :
    stripTrailingEq [u1, u2, u3, '='] = [u1, u2, u3] := by
  simp [stripTrailingEq, List.dropWhile_cons, h]

theorem strip_pad0 (u1 u2 u3 u4 : Char) (h : (u4 == '=') = false) :
    stripTrailingEq [u1, u2, u3, u4] = [u1, u2, u3, u4] := by
  simp [stripTrailingEq, List.dropWhile_cons, h]

theorem base64UrlNoPad_ne_nil (l : List Nat) (h : l ≠ []) : base64UrlNoPad l ≠ [] := by
  match l with
  | [] => exact absurd rfl h
  | [a] => simp [base64UrlNoPad]
  | [a, b] => simp [base64UrlNoPad]
  | a :: b :: c :: rest => simp [base64UrlNoPad]

theorem base64_encode_eq_urlNoPad : ∀ l : List Nat, base64_encode l = base64UrlNoPad l
  | [] => rfl
  | [a] => by
    rw [base64_encode, base64StdEncode, List.map_cons, List.map_cons, List.map_cons,
      List.map_cons, List.map_nil, replaceSave_b64Char, replaceSave_b64Char, replaceSave_pad,
      strip_pad2 _ _ (b64UrlChar_beq_pad _)]
    rfl
  | [a, b] => by
    rw [base64_encode, base64StdEncode, List.map_cons, List.map_cons, List.map_cons,
      List.map_cons, List.map_nil, replaceSave_b64Char, replaceSave_b64Char,
      replaceSave_b64Char, replaceSave_pad, strip_pad1 _ _ _ (b64UrlChar_beq_pad _)]
    rfl
  | [a, b, c] => by
    rw [base64_encode, base64StdEncode, base64StdEncode, List.map_cons, List.map_cons,
      List.map_cons, List.map_cons, List.map_nil, replaceSave_b64Char, replaceSave_b64Char,
      replaceSave_b64Char, replaceSave_b64Char, strip_pad0 _ _ _ _ (b64UrlChar_beq_pad _)]
    rfl
  | a :: b :: c :: d :: rest => by
    have ih := base64_encode_eq_urlNoPad (d :: rest)
    have hne : stripTrailingEq ((base64StdEncode (d :: rest)).map replaceSave) ≠ [] := by
      rw [show stripTrailingEq ((base64StdEncode (d :: rest)).map replaceSave)
            = base64_encode (d :: rest) from rfl, ih]
      exact base64UrlNoPad_ne_nil _ (by simp)
    rw [base64_encode, base64StdEncode, List.map_cons, List.map_cons, List.map_cons,
      List.map_cons, replaceSave_b64Char, replaceSave_b64Char, replaceSave_b64Char,
      replaceSave_b64Char,
      show b64UrlChar (a / 4) :: b64UrlChar (a % 4 * 16 + b / 16) ::
          b64UrlChar (b % 16 * 4 + c / 64) :: b64UrlChar (c % 64) ::
          (base64StdEncode (d :: rest)).map replaceSave
        = [b64UrlChar (a / 4), b64UrlChar (a % 4 * 16 + b / 16),
            b64UrlChar (b % 16 * 4 + c / 64), b64UrlChar (c % 64)] ++
          (base64StdEncode (d :: rest)).map replaceSave from rfl,
      stripTrailingEq_append _ _ hne,
      show stripTrailingEq ((base64StdEncode (d :: rest)).map replaceSave)
        = base64_encode (d :: rest) from rfl, ih]
    rfl

/-- C3: for every verifier, `generate_chalenge` equals the URL-safe
unpadded base64 (`base64url_nopad`) of the SHA-256 digest of the
verifier's bytes — i.e. standard base64 with `+ ↦ -`, `/ ↦ _` and all
trailing `=` removed — and it is deterministic, being a function of the
verifier alone. -/
theorem c3_challenge_pipeline (verifier : List Nat) :
    generate_chalenge verifier = base64UrlNoPad (sha256 verifier) :=
  base64_encode_eq_urlNoPad (sha256 verifier)

/-- C3 evaluated: the challenge of verifier `"abc"` (a closed sanity
check of the whole pipeline against an external SHA-256 + base64url
computation). -/
example : generate_chalenge [97, 98, 99] =
    "ungWv48Bz-pBQUDeXa4iI7ADYaOWF3qctBD_YfIAFa0".toList := by
  decide

end UserAccountComm
